import Mathlib

/-!
Verification of the avature_scraper pipeline against its specification.

This file shallowly embeds the parts of the program that the spec's
testable properties talk about:

* `src/main.py` — the job-record identity key (`_job_key`), the resume
  ledger (`_load_existing_ndjson`), the dedupe/emission loop of `main`,
  and the per-URL error isolation of `fetch_jobdetails_from_urls_async`;
* `src/scraper/html_fallback.py` — the retrying fetcher
  (`_get_with_retries`), the `HostThrottle` concurrency discipline, the
  SHA-256-keyed detail-page cache (`fetch_jobdetail` /
  `fetch_jobdetail_async`) and the pagination walker
  (`iter_searchjobs_pages` / `iter_searchjobs_pages_async`);
* `src/utils/http.py` — the generic 406 retry of `_request`;
* `src/scraper/fetch.py` — the API pager `fetch_jobs`.

I/O is modelled by explicit oracles (a function from attempt or page
number to the outcome the network would deliver), disk state by explicit
association lists, and the cooperative concurrency of the throttle by a
small-step transition system over task phases.
-/

namespace AvatureScraper

/-! ## Job records and identity keys (src/main.py)

A scraped job record is a Python dict.  `_job_key` in `main.py` reads
only the fields `id`, `fingerprint`, `tenant` and `source.url` (via
`job.get(...)`, which returns `None` both for an absent key and for an
explicit `null`), so the model keeps exactly those four fields; the
remaining fields (title, location, description, ...) can never influence
the identity key, deduplication or emission.  `none` models an
absent-or-null field, `some s` a string value; Python truthiness of such
a value is "non-None and non-empty". -/

structure JobRecord where
  id : Option String
  fingerprint : Option String
  tenant : Option String
  source_url : Option String
deriving DecidableEq, Repr

/-- Python truthiness of the result of `job.get(field)` for a string
field: `False` for `None` (absent or null) and for `""`. -/
def truthy : Option String → Bool
  | none => false
  | some s => !(s == "")

/-- The identity key of a record.  `main.py`:

```
def _job_key(job):
    if job.get("id") or job.get("fingerprint"):
        return (job.get("tenant"), job.get("id") or job.get("fingerprint"))
    source = job.get("source") or {}
    return (job.get("tenant"), source.get("url"))
``` -/
def _job_key (job : JobRecord) : Option String × Option String :=
  if truthy job.id || truthy job.fingerprint then
    (job.tenant, if truthy job.id then job.id else job.fingerprint)
  else
    (job.tenant, job.source_url)

/-- The identity key as the spec's sentence words it: `(tenant, id)` if
`id` is *present*, else `(tenant, fingerprint)` if `fingerprint` is
present, else `(tenant, source.url)` — where presence of a field means it
carries a value, with no emptiness test.  This is the definition to be
compared against `_job_key`, which instead tests Python *truthiness*
(so an empty-string `id` falls through to the fingerprint there). -/
def specIdentityKey (job : JobRecord) : Option String × Option String :=
  match job.id with
  | some i => (job.tenant, some i)
  | none =>
    match job.fingerprint with
    | some f => (job.tenant, some f)
    | none => (job.tenant, job.source_url)

/-- The dedupe/emission loop at the end of `main` (`main.py`):

```
for job in jobs:
    key = _job_key(job)
    if key in seen:
        continue
    seen.add(key)
    ndjson.write(json.dumps(job)); ndjson.write("\n")
```

The Python `seen` set is modelled as a list of keys used only through
membership and insertion, and the function returns the list of records
actually written to the output, in order. -/
def emitLoop (seen : List (Option String × Option String)) :
    List JobRecord → List JobRecord
  | [] => []
  | job :: rest =>
    if _job_key job ∈ seen then emitLoop seen rest
    else job :: emitLoop (_job_key job :: seen) rest

/-- `_load_existing_ndjson` (`main.py`): read the existing output file,
skip blank lines and lines that fail to parse as JSON (modelled as
`none`), and collect the identity key of every surviving record.  The
result is used only through membership, so a list of keys models the
Python set faithfully. -/
def _load_existing_ndjson : List (Option JobRecord) → List (Option String × Option String)
  | [] => []
  | none :: rest => _load_existing_ndjson rest
  | some job :: rest => _job_key job :: _load_existing_ndjson rest

lemma key_not_mem_of_mem_emitLoop :
    ∀ (jobs : List JobRecord) (seen : List (Option String × Option String))
      (j : JobRecord), j ∈ emitLoop seen jobs → _job_key j ∉ seen := by
  intro jobs
  induction jobs with
  | nil => intro seen j h; simp [emitLoop] at h
  | cons job rest ih =>
    intro seen j h
    by_cases hk : _job_key job ∈ seen
    · simp only [emitLoop, if_pos hk] at h
      exact ih seen j h
    · simp only [emitLoop, if_neg hk] at h
      rcases List.mem_cons.mp h with h | h
      · subst h; exact hk
      · intro hmem
        exact ih (_job_key job :: seen) j h (List.mem_cons_of_mem _ hmem)

/-- Claim C1 (amended): within one run, no two distinct records written
to the output share an identity key, where the identity key is
`(tenant, id)` if `id` is present and non-empty, else
`(tenant, fingerprint)` if present and non-empty, else
`(tenant, source.url)` — i.e. exactly `_job_key`.  This holds for every
initial seen set (fresh runs and resumed runs alike) and every collected
job list. -/
theorem C1_emitted_keys_pairwise_distinct
    (seen : List (Option String × Option String)) (jobs : List JobRecord) :
    (emitLoop seen jobs).Pairwise (fun a b => _job_key a ≠ _job_key b) := by
  induction jobs generalizing seen with
  | nil => simp [emitLoop]
  | cons job rest ih =>
    by_cases hk : _job_key job ∈ seen
    · simpa [emitLoop, if_pos hk] using ih seen
    · simp only [emitLoop, if_neg hk]
      refine List.Pairwise.cons ?_ (ih (_job_key job :: seen))
      intro b hb heq
      have := key_not_mem_of_mem_emitLoop rest (_job_key job :: seen) b hb
      exact this (by simp [heq])

/-- Claim C1, literal reading, is false on the code: two distinct records
with a present-but-empty `id` and distinct fingerprints (as `normalize`
produces from an API response whose jobs carry `"id": ""` and different
content) are both written — `_job_key` falls through to the distinct
fingerprints — yet they share the spec-worded identity key
`(tenant, id)`. -/
theorem C1_counterexample :
    (JobRecord.mk (some "") (some "f") (some "t") none
      ≠ JobRecord.mk (some "") (some "g") (some "t") none)
    ∧ emitLoop []
        [JobRecord.mk (some "") (some "f") (some "t") none,
         JobRecord.mk (some "") (some "g") (some "t") none]
      = [JobRecord.mk (some "") (some "f") (some "t") none,
         JobRecord.mk (some "") (some "g") (some "t") none]
    ∧ specIdentityKey (JobRecord.mk (some "") (some "f") (some "t") none)
      = specIdentityKey (JobRecord.mk (some "") (some "g") (some "t") none) := by
  refine ⟨by decide, by decide, by decide⟩

/-- Closed instance of the amended C1 theorem. -/
theorem C1_emitted_keys_pairwise_distinct_witness :
    (emitLoop []
      [JobRecord.mk (some "1") none (some "t") none,
       JobRecord.mk (some "1") none (some "t") none]).Pairwise
      (fun a b => _job_key a ≠ _job_key b) :=
  C1_emitted_keys_pairwise_distinct [] _

lemma load_existing_append (a b : List (Option JobRecord)) :
    _load_existing_ndjson (a ++ b)
      = _load_existing_ndjson a ++ _load_existing_ndjson b := by
  induction a with
  | nil => rfl
  | cons line rest ih =>
    cases line with
    | none => simpa [_load_existing_ndjson] using ih
    | some job => simpa [_load_existing_ndjson] using ih

lemma load_existing_map_some (jobs : List JobRecord) :
    _load_existing_ndjson (jobs.map some) = jobs.map _job_key := by
  induction jobs with
  | nil => rfl
  | cons job rest ih => simpa [_load_existing_ndjson] using ih

lemma key_mem_seen_or_emitted :
    ∀ (jobs : List JobRecord) (seen : List (Option String × Option String))
      (j : JobRecord), j ∈ jobs →
      _job_key j ∈ seen ∨ _job_key j ∈ (emitLoop seen jobs).map _job_key := by
  intro jobs
  induction jobs with
  | nil => intro seen j h; simp at h
  | cons job rest ih =>
    intro seen j h
    rcases List.mem_cons.mp h with h | h
    · subst h
      by_cases hk : _job_key j ∈ seen
      · exact Or.inl hk
      · right; simp [emitLoop, if_neg hk]
    · by_cases hk : _job_key job ∈ seen
      · simpa [emitLoop, if_pos hk] using ih seen j h
      · rcases ih (_job_key job :: seen) j h with hmem | hmem
        · rcases List.mem_cons.mp hmem with heq | hmem2
          · right; simp [emitLoop, if_neg hk, heq]
          · exact Or.inl hmem2
        · right; simp only [emitLoop, if_neg hk, List.map_cons]
          exact List.mem_cons_of_mem _ hmem

lemma emitLoop_eq_nil_of_all_seen :
    ∀ (jobs : List JobRecord) (seen : List (Option String × Option String)),
      (∀ j ∈ jobs, _job_key j ∈ seen) → emitLoop seen jobs = [] := by
  intro jobs
  induction jobs with
  | nil => intro seen _; rfl
  | cons job rest ih =>
    intro seen h
    have hk : _job_key job ∈ seen := h job (List.mem_cons_self _ _)
    simp only [emitLoop, if_pos hk]
    exact ih seen (fun j hj => h j (List.mem_cons_of_mem _ hj))

/-- Claim C2: a second run without `--fresh`, against an unchanged source
(the same collected job list `jobs`) and the unchanged output file
produced by the first run (the prior file contents — arbitrary lines,
blank/malformed ones skipped as `none` — plus the records the first run
appended), loads a seen set that already contains the identity key of
every collected record, and therefore appends zero new records. -/
theorem C2_second_run_appends_nothing
    (prior : List (Option JobRecord)) (jobs : List JobRecord) :
    (∀ j ∈ jobs,
      _job_key j ∈
        _load_existing_ndjson
          (prior ++ (emitLoop (_load_existing_ndjson prior) jobs).map some))
    ∧ emitLoop
        (_load_existing_ndjson
          (prior ++ (emitLoop (_load_existing_ndjson prior) jobs).map some))
        jobs = [] := by
  have hload :
      _load_existing_ndjson
          (prior ++ (emitLoop (_load_existing_ndjson prior) jobs).map some)
        = _load_existing_ndjson prior
          ++ (emitLoop (_load_existing_ndjson prior) jobs).map _job_key := by
    rw [load_existing_append, load_existing_map_some]
  have hmem : ∀ j ∈ jobs,
      _job_key j ∈
        _load_existing_ndjson
          (prior ++ (emitLoop (_load_existing_ndjson prior) jobs).map some) := by
    intro j hj
    rw [hload]
    rcases key_mem_seen_or_emitted jobs (_load_existing_ndjson prior) j hj with h | h
    · exact List.mem_append_left _ h
    · exact List.mem_append_right _ h
  exact ⟨hmem, emitLoop_eq_nil_of_all_seen jobs _ hmem⟩

/-- Closed instance of the C2 theorem: one prior malformed line plus one
record collected both times. -/
theorem C2_second_run_appends_nothing_witness :
    emitLoop
      (_load_existing_ndjson
        ([none]
          ++ (emitLoop (_load_existing_ndjson [none])
                [JobRecord.mk (some "1") none (some "t") none]).map some))
      [JobRecord.mk (some "1") none (some "t") none] = [] :=
  (C2_second_run_appends_nothing [none] [JobRecord.mk (some "1") none (some "t") none]).2

/-! ## Retrying fetcher (src/scraper/html_fallback.py, `_get_with_retries`)

The network is modelled by an oracle mapping the attempt number to the
outcome that attempt would observe: either a network-level error
(`httpx.RequestError`, i.e. connection/timeout) or an HTTP response with
a status code and a body.  Sleeps and backoff timing do not affect
control flow and are not modelled; the model returns the surfaced result
together with the number of GET attempts performed. -/

inductive AttemptOutcome where
  | netErr : AttemptOutcome
  | resp (status : Nat) (body : String) : AttemptOutcome
deriving DecidableEq, Repr

inductive FetchResult where
  | ok (status : Nat) (body : String) : FetchResult
  | netFail : FetchResult
  | httpFail (status : Nat) : FetchResult
deriving DecidableEq, Repr

/-- `RETRYABLE_STATUS = {408, 429, 500, 502, 503, 504}`. -/
def RETRYABLE_STATUS : List Nat := [408, 429, 500, 502, 503, 504]

/-- One loop iteration of `_get_with_retries`, indexed by the current
`attempt` and the number `left = retries - attempt` of attempts still
allowed after this one (so `left = 0` exactly when `attempt == retries`,
the condition the source tests):

* network error: recorded; on the last attempt the error is re-raised,
  otherwise sleep-and-continue;
* response with status `< 400`: returned;
* status in `RETRYABLE_STATUS` and not the last attempt:
  sleep (`Retry-After` or backoff) and continue;
* otherwise (`status not in RETRYABLE_STATUS or attempt == retries`):
  `resp.raise_for_status()` surfaces the HTTP error.

Returns the surfaced result and the number of attempts performed. -/
def get_with_retries_go (oracle : Nat → AttemptOutcome) :
    Nat → Nat → FetchResult × Nat
  | attempt, 0 =>
    match oracle attempt with
    | .netErr => (.netFail, 1)
    | .resp status body =>
      if status < 400 then (.ok status body, 1)
      else (.httpFail status, 1)
  | attempt, left + 1 =>
    match oracle attempt with
    | .netErr =>
      let p := get_with_retries_go oracle (attempt + 1) left
      (p.1, p.2 + 1)
    | .resp status body =>
      if status < 400 then (.ok status body, 1)
      else if status ∈ RETRYABLE_STATUS then
        let p := get_with_retries_go oracle (attempt + 1) left
        (p.1, p.2 + 1)
      else (.httpFail status, 1)

/-- `_get_with_retries(client, url, state, min_delay, retries, timeout)`:
the loop `for attempt in range(retries + 1)` starting at attempt 0. -/
def get_with_retries (oracle : Nat → AttemptOutcome) (retries : Nat) :
    FetchResult × Nat :=
  get_with_retries_go oracle 0 retries

/-- An attempt outcome on which the loop retries: a network error, or an
HTTP status in the retryable set. -/
def retryableOutcome : AttemptOutcome → Bool
  | .netErr => true
  | .resp status _ => decide (status ∈ RETRYABLE_STATUS)

/-- What `_get_with_retries` surfaces when its last attempt yields the
given retryable outcome: the re-raised network error, or the
`raise_for_status` HTTP error of the last response. -/
def surfaceLast : AttemptOutcome → FetchResult
  | .netErr => .netFail
  | .resp status _ => .httpFail status

lemma get_with_retries_go_attempts_le (oracle : Nat → AttemptOutcome) :
    ∀ (left attempt : Nat),
      (get_with_retries_go oracle attempt left).2 ≤ left + 1 := by
  intro left
  induction left with
  | zero =>
    intro attempt
    rw [get_with_retries_go]
    rcases oracle attempt with _ | ⟨status, body⟩
    · simp
    · by_cases h4 : status < 400
      · simp [h4]
      · simp [h4]
  | succ left' ih =>
    intro attempt
    rw [get_with_retries_go]
    rcases oracle attempt with _ | ⟨status, body⟩
    · simpa using Nat.succ_le_succ (ih (attempt + 1))
    · by_cases h4 : status < 400
      · simp [h4]
      · by_cases hr : status ∈ RETRYABLE_STATUS
        · simpa [h4, hr] using Nat.succ_le_succ (ih (attempt + 1))
        · simp [h4, hr]

lemma retryable_not_lt_400 {status : Nat} {body : String}
    (h : retryableOutcome (.resp status body) = true) : ¬ status < 400 := by
  have hmem : status ∈ RETRYABLE_STATUS := by
    simpa [retryableOutcome] using h
  simp [RETRYABLE_STATUS] at hmem
  omega

lemma get_with_retries_go_all_retryable (oracle : Nat → AttemptOutcome) :
    ∀ (left attempt : Nat),
      (∀ i, attempt ≤ i → i ≤ attempt + left → retryableOutcome (oracle i) = true) →
      get_with_retries_go oracle attempt left
        = (surfaceLast (oracle (attempt + left)), left + 1) := by
  intro left
  induction left with
  | zero =>
    intro attempt h
    have hA := h attempt (le_refl _) (by omega)
    rw [get_with_retries_go]
    rcases hO : oracle attempt with _ | ⟨status, body⟩
    · simp [hO, surfaceLast]
    · rw [hO] at hA
      have h4 : ¬ status < 400 := retryable_not_lt_400 hA
      simp [h4, hO, surfaceLast]
  | succ left' ih =>
    intro attempt h
    have hA := h attempt (le_refl _) (by omega)
    have hrec := ih (attempt + 1)
      (fun i h1 h2 => h i (by omega) (by omega))
    rw [get_with_retries_go]
    rcases hO : oracle attempt with _ | ⟨status, body⟩
    · simp only [hrec]
      have : attempt + 1 + left' = attempt + (left' + 1) := by omega
      simp [this]
    · rw [hO] at hA
      have h4 : ¬ status < 400 := retryable_not_lt_400 hA
      have hr : status ∈ RETRYABLE_STATUS := by
        simpa [retryableOutcome] using hA
      simp only [h4, if_false, hr, if_true, if_neg h4, if_pos hr, hrec]
      have : attempt + 1 + left' = attempt + (left' + 1) := by omega
      simp [this]

lemma get_with_retries_go_fatal_at (oracle : Nat → AttemptOutcome)
    (s : Nat) (b : String) :
    ∀ (k attempt left : Nat),
      (∀ i, attempt ≤ i → i < attempt + k → retryableOutcome (oracle i) = true) →
      oracle (attempt + k) = .resp s b → 400 ≤ s → s ∉ RETRYABLE_STATUS →
      k ≤ left →
      get_with_retries_go oracle attempt left = (.httpFail s, k + 1) := by
  intro k
  induction k with
  | zero =>
    intro attempt left _ hO hs1 hs2 _
    rw [Nat.add_zero] at hO
    have h4 : ¬ s < 400 := by omega
    cases left with
    | zero => rw [get_with_retries_go, hO]; simp [h4]
    | succ left2 => rw [get_with_retries_go, hO]; simp [h4, hs2]
  | succ k' ih =>
    intro attempt left h hO hs1 hs2 hk
    have hA := h attempt (le_refl _) (by omega)
    obtain ⟨left', rfl⟩ : ∃ left', left = left' + 1 :=
      ⟨left - 1, by omega⟩
    have hrec := ih (attempt + 1) left'
      (fun i h1 h2 => h i (by omega) (by omega))
      (by rw [show attempt + 1 + k' = attempt + (k' + 1) by omega]; exact hO)
      hs1 hs2 (by omega)
    rw [get_with_retries_go]
    rcases hOa : oracle attempt with _ | ⟨status, body⟩
    · simp [hrec]
    · rw [hOa] at hA
      have h4 : ¬ status < 400 := retryable_not_lt_400 hA
      have hr : status ∈ RETRYABLE_STATUS := by
        simpa [retryableOutcome] using hA
      simp [h4, hr, hrec]

/-- Claim C3: `_get_with_retries` makes at most `retries + 1` GET
attempts for every URL; if every attempt yields a retryable outcome (a
network error or a status in `{408, 429, 500, 502, 503, 504}`, e.g. 503
throughout) it performs exactly `retries + 1` attempts and surfaces the
last error/response; if attempt `k` yields a non-retryable HTTP error
status (e.g. 404) after only retryable outcomes, it fails on that
attempt with `k + 1` total attempts and zero further retries. -/
theorem C3_retry_policy (retries k s : Nat) (b : String)
    (oA oB : Nat → AttemptOutcome)
    (hA : ∀ i, i ≤ retries → retryableOutcome (oA i) = true)
    (hB1 : ∀ i, i < k → retryableOutcome (oB i) = true)
    (hB2 : oB k = .resp s b) (hs1 : 400 ≤ s) (hs2 : s ∉ RETRYABLE_STATUS)
    (hk : k ≤ retries) :
    (∀ oracle : Nat → AttemptOutcome,
      (get_with_retries oracle retries).2 ≤ retries + 1)
    ∧ get_with_retries oA retries = (surfaceLast (oA retries), retries + 1)
    ∧ get_with_retries oB retries = (.httpFail s, k + 1) := by
  refine ⟨fun oracle => get_with_retries_go_attempts_le oracle retries 0, ?_, ?_⟩
  · have := get_with_retries_go_all_retryable oA retries 0
      (fun i h1 h2 => hA i (by omega))
    simpa [get_with_retries] using this
  · exact get_with_retries_go_fatal_at oB s b k 0 retries
      (fun i h1 h2 => hB1 i (by omega)) (by simpa using hB2) hs1 hs2 hk

/-- Closed instance of the C3 theorem: 503 on every attempt exhausts
exactly `retries + 1 = 3` attempts; a 404 fails on the first attempt. -/
theorem C3_retry_policy_witness :
    (get_with_retries (fun _ => .resp 503 "") 2).2 ≤ 3
    ∧ get_with_retries (fun _ => .resp 503 "") 2 = (.httpFail 503, 3)
    ∧ get_with_retries (fun _ => .resp 404 "") 2 = (.httpFail 404, 1) := by
  have h := C3_retry_policy 2 0 404 "" (fun _ => .resp 503 "")
    (fun _ => .resp 404 "") (by decide) (by decide) rfl (by decide)
    (by decide) (by decide)
  exact ⟨h.1 _, h.2.1, h.2.2⟩

/-! ## SHA-256 (hashlib.sha256, used for the cache key)

A byte-level implementation over `Nat` with explicit `% 2^32`
truncation, validated against the standard test vectors (e.g.
`sha256Hex "abc" =
"ba7816bf8f01cfea414140de5dae2223b00361a396177a9cb410ff61f20015ad"`).
Bytes are the UTF-8 encoding of the URL string, exactly as
`job_url.encode("utf-8")` produces. -/

def add32 (a b : Nat) : Nat := (a + b) % 4294967296

def and32 (a b : Nat) : Nat := Nat.land a b

def not32 (a : Nat) : Nat := Nat.xor a 4294967295

def rotr32 (x r : Nat) : Nat := ((x >>> r) ||| (x <<< (32 - r))) % 4294967296

/-- Big-endian byte expansion of a number to the given width. -/
def bytesBE : Nat → Nat → List Nat
  | 0, _ => []
  | k + 1, n => bytesBE k (n / 256) ++ [n % 256]

/-- SHA-256 message padding: `0x80`, zeros to 56 mod 64, then the
64-bit big-endian bit length. -/
def sha256Pad (msg : List Nat) : List Nat :=
  let padZeros := (119 - msg.length % 64) % 64
  msg ++ [128] ++ List.replicate padZeros 0 ++ bytesBE 8 (msg.length * 8)

/-- Big-endian 32-bit words from a byte list. -/
def toWords : List Nat → List Nat
  | b0 :: b1 :: b2 :: b3 :: rest =>
    (((b0 * 256 + b1) * 256 + b2) * 256 + b3) :: toWords rest
  | _ => []

def chunks64 : List Nat → List (List Nat)
  | [] => []
  | x :: rest => ((x :: rest).take 64) :: chunks64 ((x :: rest).drop 64)
termination_by l => l.length
decreasing_by simp [List.length_drop]; omega

def sha256K : List Nat := [
  1116352408, 1899447441, 3049323471, 3921009573, 961987163, 1508970993,
  2453635748, 2870763221, 3624381080, 310598401, 607225278, 1426881987,
  1925078388, 2162078206, 2614888103, 3248222580, 3835390401, 4022224774,
  264347078, 604807628, 770255983, 1249150122, 1555081692, 1996064986,
  2554220882, 2821834349, 2952996808, 3210313671, 3336571891, 3584528711,
  113926993, 338241895, 666307205, 773529912, 1294757372, 1396182291,
  1695183700, 1986661051, 2177026350, 2456956037, 2730485921, 2820302411,
  3259730800, 3345764771, 3516065817, 3600352804, 4094571909, 275423344,
  430227734, 506948616, 659060556, 883997877, 958139571, 1322822218,
  1537002063, 1747873779, 1955562222, 2024104815, 2227730452, 2361852424,
  2428436474, 2756734187, 3204031479, 3329325298]

def sha256H0 : List Nat := [
  1779033703, 3144134277, 1013904242, 2773480762,
  1359893119, 2600822924, 528734635, 1541459225]

/-- Extend the 16 chunk words by `k` schedule words. -/
def extendSchedule : List Nat → Nat → List Nat
  | w, 0 => w
  | w, k + 1 =>
    let i := w.length
    let w15 := w.getD (i - 15) 0
    let w2 := w.getD (i - 2) 0
    let w16 := w.getD (i - 16) 0
    let w7 := w.getD (i - 7) 0
    let s0 := Nat.xor (Nat.xor (rotr32 w15 7) (rotr32 w15 18)) (w15 >>> 3)
    let s1 := Nat.xor (Nat.xor (rotr32 w2 17) (rotr32 w2 19)) (w2 >>> 10)
    extendSchedule (w ++ [add32 (add32 w16 s0) (add32 w7 s1)]) k

structure Hash8 where
  a : Nat
  b : Nat
  c : Nat
  d : Nat
  e : Nat
  f : Nat
  g : Nat
  h : Nat

def compressStep (st : Hash8) (ki wi : Nat) : Hash8 :=
  let bigS1 := Nat.xor (Nat.xor (rotr32 st.e 6) (rotr32 st.e 11)) (rotr32 st.e 25)
  let ch := Nat.xor (and32 st.e st.f) (and32 (not32 st.e) st.g)
  let temp1 := add32 st.h (add32 bigS1 (add32 ch (add32 ki wi)))
  let bigS0 := Nat.xor (Nat.xor (rotr32 st.a 2) (rotr32 st.a 13)) (rotr32 st.a 22)
  let maj := Nat.xor (Nat.xor (and32 st.a st.b) (and32 st.a st.c)) (and32 st.b st.c)
  let temp2 := add32 bigS0 maj
  ⟨add32 temp1 temp2, st.a, st.b, st.c, add32 st.d temp1, st.e, st.f, st.g⟩

def compressChunk (hs : List Nat) (chunk : List Nat) : List Nat :=
  let w := extendSchedule (toWords chunk) 48
  let st0 : Hash8 := ⟨hs.getD 0 0, hs.getD 1 0, hs.getD 2 0, hs.getD 3 0,
                      hs.getD 4 0, hs.getD 5 0, hs.getD 6 0, hs.getD 7 0⟩
  let stF := (List.range 64).foldl
    (fun st i => compressStep st (sha256K.getD i 0) (w.getD i 0)) st0
  [add32 (hs.getD 0 0) stF.a, add32 (hs.getD 1 0) stF.b,
   add32 (hs.getD 2 0) stF.c, add32 (hs.getD 3 0) stF.d,
   add32 (hs.getD 4 0) stF.e, add32 (hs.getD 5 0) stF.f,
   add32 (hs.getD 6 0) stF.g, add32 (hs.getD 7 0) stF.h]

def strBytes (s : String) : List Nat := s.toUTF8.toList.map (fun b => b.toNat)

def sha256Words (msg : List Nat) : List Nat :=
  (chunks64 (sha256Pad msg)).foldl compressChunk sha256H0

def toHex8 (n : Nat) : String :=
  let ds := Nat.toDigits 16 n
  String.mk (List.replicate (8 - ds.length) '0' ++ ds)

/-- `hashlib.sha256(s.encode("utf-8")).hexdigest()`. -/
def sha256Hex (s : String) : String :=
  String.join ((sha256Words (strBytes s)).map toHex8)

/-! ## Response cache (src/scraper/html_fallback.py, `fetch_jobdetail`
and `fetch_jobdetail_async`)

The cache directory is modelled as an association list from file path to
file contents; `os.path.exists` is lookup, writing is prepending.  The
network is modelled by the final response a GET to the URL would produce
(for the async variant, by an attempt oracle fed to the retrying
fetcher).  Each result carries the updated cache and the number of
network requests issued. -/

def CACHE_DIR : String := ".cache/jobdetail"

/-- `os.path.join(CACHE_DIR, f"{sha256(url).hexdigest()}.html")`. -/
def cachePath (job_url : String) : String :=
  CACHE_DIR ++ "/" ++ sha256Hex job_url ++ ".html"

inductive FetchErr where
  | netError : FetchErr
  | httpError (status : Nat) : FetchErr
deriving DecidableEq, Repr

/-- Synchronous `fetch_jobdetail(job_url)`: return the cached file if it
exists; otherwise GET the URL, `raise_for_status`, write the raw body
under the hash key and return it. -/
def fetch_jobdetail (net : String → Nat × String)
    (cache : List (String × String)) (job_url : String) :
    Except FetchErr (String × String) × List (String × String) × Nat :=
  match cache.lookup (cachePath job_url) with
  | some body => (.ok (job_url, body), cache, 0)
  | none =>
    let r := net job_url
    if 400 ≤ r.1 then (.error (.httpError r.1), cache, 1)
    else (.ok (job_url, r.2), (cachePath job_url, r.2) :: cache, 1)

/-- Asynchronous `fetch_jobdetail_async(job_url, ...)`: identical cache
discipline, with the network GET going through `_get_with_retries`
(which only returns statuses `< 400`, so the subsequent
`raise_for_status` never fires on the returned response). -/
def fetch_jobdetail_async (oracle : Nat → AttemptOutcome) (retries : Nat)
    (cache : List (String × String)) (job_url : String) :
    Except FetchErr (String × String) × List (String × String) × Nat :=
  match cache.lookup (cachePath job_url) with
  | some body => (.ok (job_url, body), cache, 0)
  | none =>
    match get_with_retries oracle retries with
    | (.ok _ body, n) => (.ok (job_url, body), (cachePath job_url, body) :: cache, n)
    | (.netFail, n) => (.error .netError, cache, n)
    | (.httpFail s, n) => (.error (.httpError s), cache, n)

lemma lookup_cons_self (key v : String) (cache : List (String × String)) :
    ((key, v) :: cache).lookup key = some v := by
  simp [List.lookup]

/-- Claim C4: the detail-page cache is read-through/write-through.  On a
cache miss with a successful response, `fetch_jobdetail` issues one
network request, writes the raw body under `sha256(url).html` and
returns it; an immediately following fetch of the same URL against the
updated cache directory returns the stored contents with zero network
requests — so fetching the same URL twice in sequence causes exactly one
network request.  The async variant behaves identically when the first
retry attempt succeeds. -/
theorem C4_cache_read_write_through
    (net : String → Nat × String) (oracle : Nat → AttemptOutcome)
    (retries : Nat) (cache : List (String × String)) (job_url : String)
    (s : Nat) (b : String)
    (hmiss : cache.lookup (cachePath job_url) = none)
    (hok : (net job_url).1 < 400)
    (ho : oracle 0 = .resp s b) (hs : s < 400) :
    fetch_jobdetail net cache job_url
      = (.ok (job_url, (net job_url).2),
         (cachePath job_url, (net job_url).2) :: cache, 1)
    ∧ fetch_jobdetail net ((cachePath job_url, (net job_url).2) :: cache) job_url
      = (.ok (job_url, (net job_url).2),
         (cachePath job_url, (net job_url).2) :: cache, 0)
    ∧ (fetch_jobdetail net cache job_url).2.2
      + (fetch_jobdetail net (fetch_jobdetail net cache job_url).2.1 job_url).2.2
      = 1
    ∧ fetch_jobdetail_async oracle retries cache job_url
      = (.ok (job_url, b), (cachePath job_url, b) :: cache, 1)
    ∧ fetch_jobdetail_async oracle retries
        ((cachePath job_url, b) :: cache) job_url
      = (.ok (job_url, b), (cachePath job_url, b) :: cache, 0) := by
  have hfirst : fetch_jobdetail net cache job_url
      = (.ok (job_url, (net job_url).2),
         (cachePath job_url, (net job_url).2) :: cache, 1) := by
    rw [fetch_jobdetail, hmiss]
    simp [Nat.not_le.mpr hok]
  have hsecond : fetch_jobdetail net
      ((cachePath job_url, (net job_url).2) :: cache) job_url
      = (.ok (job_url, (net job_url).2),
         (cachePath job_url, (net job_url).2) :: cache, 0) := by
    rw [fetch_jobdetail, lookup_cons_self]
  have hretry : get_with_retries oracle retries = (.ok s b, 1) := by
    cases retries with
    | zero => rw [get_with_retries, get_with_retries_go, ho]; simp [hs]
    | succ r => rw [get_with_retries, get_with_retries_go, ho]; simp [hs]
  refine ⟨hfirst, hsecond, ?_, ?_, ?_⟩
  · rw [hfirst]
    simp only []
    rw [hsecond]
    rfl
  · rw [fetch_jobdetail_async, hmiss, hretry]
  · rw [fetch_jobdetail_async, lookup_cons_self]

/-- Closed instance of the C4 theorem: the two sequential fetches of one
URL against an initially empty cache directory issue one network request
in total. -/
theorem C4_cache_read_write_through_witness :
    (fetch_jobdetail (fun _ => (200, "page")) [] "https://t.avature.net/careers/JobDetail/1").2.2
      + (fetch_jobdetail (fun _ => (200, "page"))
          (fetch_jobdetail (fun _ => (200, "page")) [] "https://t.avature.net/careers/JobDetail/1").2.1
          "https://t.avature.net/careers/JobDetail/1").2.2
      = 1 :=
  (C4_cache_read_write_through (fun _ => (200, "page"))
    (fun _ => .resp 200 "page") 3 [] "https://t.avature.net/careers/JobDetail/1"
    200 "page" rfl (by decide) rfl (by decide)).2.2.1

/-! ## Host throttle (src/scraper/html_fallback.py, `HostThrottle` and
`_get_with_retries`)

`HostThrottle(per_host)` holds `asyncio.Semaphore(per_host)`.  Every
attempt of `_get_with_retries` runs

```
await state.semaphore.acquire()
try:
    await _polite_wait(state, min_delay)   # holding, no request yet
    resp = await client.get(url, ...)      # holding, request outstanding
    await _record_request(state)           # holding, request finished
finally:
    state.semaphore.release()
```

so a task holding a semaphore slot passes through the phases
delay-wait → in-request → recorded before releasing, and the `finally`
releases on every exit path (success, HTTP error and network error
alike; the network-error backoff sleep happens in the `recorded` phase,
still holding).  The interleaving of any number of fetch tasks sharing
one throttle instance is modelled as a small-step transition system: the
task pool is a multiset of phases, the semaphore an available-permit
counter, and `acquire` is only enabled while a permit is available. -/

inductive ThrottlePhase where
  | notHolding : ThrottlePhase
  | delayWait : ThrottlePhase
  | inRequest : ThrottlePhase
  | recorded : ThrottlePhase
deriving DecidableEq, Repr

structure ThrottleSys where
  tasks : Multiset ThrottlePhase
  sem : Nat
deriving DecidableEq

/-- One scheduler step of the pool of fetch tasks sharing a throttle. -/
inductive ThrottleStep : ThrottleSys → ThrottleSys → Prop where
  | acquire (s : ThrottleSys) (h : ThrottlePhase.notHolding ∈ s.tasks)
      (hs : s.sem ≠ 0) :
      ThrottleStep s
        ⟨ThrottlePhase.delayWait ::ₘ s.tasks.erase ThrottlePhase.notHolding,
         s.sem - 1⟩
  | startRequest (s : ThrottleSys) (h : ThrottlePhase.delayWait ∈ s.tasks) :
      ThrottleStep s
        ⟨ThrottlePhase.inRequest ::ₘ s.tasks.erase ThrottlePhase.delayWait,
         s.sem⟩
  | endRequest (s : ThrottleSys) (h : ThrottlePhase.inRequest ∈ s.tasks) :
      ThrottleStep s
        ⟨ThrottlePhase.recorded ::ₘ s.tasks.erase ThrottlePhase.inRequest,
         s.sem⟩
  | release (s : ThrottleSys) (h : ThrottlePhase.recorded ∈ s.tasks) :
      ThrottleStep s
        ⟨ThrottlePhase.notHolding ::ₘ s.tasks.erase ThrottlePhase.recorded,
         s.sem + 1⟩

/-- A fresh `HostThrottle(per_host)` shared by `numTasks` tasks, none of
which has started an attempt yet. -/
def initThrottle (numTasks per_host : Nat) : ThrottleSys :=
  ⟨Multiset.replicate numTasks ThrottlePhase.notHolding, per_host⟩

inductive ThrottleReachable (numTasks per_host : Nat) : ThrottleSys → Prop where
  | init : ThrottleReachable numTasks per_host (initThrottle numTasks per_host)
  | step {s t : ThrottleSys} : ThrottleReachable numTasks per_host s →
      ThrottleStep s t → ThrottleReachable numTasks per_host t

/-- Number of tasks currently holding a semaphore slot. -/
def holdingCount (m : Multiset ThrottlePhase) : Nat :=
  m.count ThrottlePhase.delayWait + m.count ThrottlePhase.inRequest
    + m.count ThrottlePhase.recorded

/-- Number of requests outstanding at this instant. -/
def outstandingRequests (s : ThrottleSys) : Nat :=
  s.tasks.count ThrottlePhase.inRequest

lemma throttle_step_invariant {per_host : Nat} {s t : ThrottleSys}
    (hstep : ThrottleStep s t)
    (ih : holdingCount s.tasks + s.sem = per_host) :
    holdingCount t.tasks + t.sem = per_host := by
  cases hstep with
  | acquire hmem hsem =>
    have hcnt : 1 ≤ s.tasks.count ThrottlePhase.notHolding :=
      Multiset.one_le_count_iff_mem.mpr hmem
    simp only [holdingCount] at ih
    simp [holdingCount, Multiset.count_cons, Multiset.count_erase_self,
      Multiset.count_erase_of_ne
        (by decide : ThrottlePhase.delayWait ≠ ThrottlePhase.notHolding),
      Multiset.count_erase_of_ne
        (by decide : ThrottlePhase.inRequest ≠ ThrottlePhase.notHolding),
      Multiset.count_erase_of_ne
        (by decide : ThrottlePhase.recorded ≠ ThrottlePhase.notHolding)]
    omega
  | startRequest hmem =>
    have hcnt : 1 ≤ s.tasks.count ThrottlePhase.delayWait :=
      Multiset.one_le_count_iff_mem.mpr hmem
    simp only [holdingCount] at ih
    simp [holdingCount, Multiset.count_cons, Multiset.count_erase_self,
      Multiset.count_erase_of_ne
        (by decide : ThrottlePhase.inRequest ≠ ThrottlePhase.delayWait),
      Multiset.count_erase_of_ne
        (by decide : ThrottlePhase.recorded ≠ ThrottlePhase.delayWait)]
    omega
  | endRequest hmem =>
    have hcnt : 1 ≤ s.tasks.count ThrottlePhase.inRequest :=
      Multiset.one_le_count_iff_mem.mpr hmem
    simp only [holdingCount] at ih
    simp [holdingCount, Multiset.count_cons, Multiset.count_erase_self,
      Multiset.count_erase_of_ne
        (by decide : ThrottlePhase.delayWait ≠ ThrottlePhase.inRequest),
      Multiset.count_erase_of_ne
        (by decide : ThrottlePhase.recorded ≠ ThrottlePhase.inRequest)]
    omega
  | release hmem =>
    have hcnt : 1 ≤ s.tasks.count ThrottlePhase.recorded :=
      Multiset.one_le_count_iff_mem.mpr hmem
    simp only [holdingCount] at ih
    simp [holdingCount, Multiset.count_cons, Multiset.count_erase_self,
      Multiset.count_erase_of_ne
        (by decide : ThrottlePhase.delayWait ≠ ThrottlePhase.recorded),
      Multiset.count_erase_of_ne
        (by decide : ThrottlePhase.inRequest ≠ ThrottlePhase.recorded)]
    omega

lemma throttle_invariant (numTasks per_host : Nat) (s : ThrottleSys)
    (h : ThrottleReachable numTasks per_host s) :
    holdingCount s.tasks + s.sem = per_host := by
  induction h with
  | init =>
    simp [initThrottle, holdingCount, Multiset.count_replicate]
  | step hr hstep ih => exact throttle_step_invariant hstep ih

/-- Claim C5: with `per_host = N`, in every state reachable by any
interleaving of any number of fetch tasks sharing one `HostThrottle`
instance, at most `N` requests are outstanding: a request is only in
flight while its task holds a semaphore slot (acquired before the
request starts, released on every exit path), and at most `N` slots
exist. -/
theorem C5_throttle_bounds_outstanding (numTasks per_host : Nat)
    (s : ThrottleSys) (h : ThrottleReachable numTasks per_host s) :
    outstandingRequests s ≤ per_host := by
  have hinv := throttle_invariant numTasks per_host s h
  have hle : s.tasks.count ThrottlePhase.inRequest ≤ holdingCount s.tasks := by
    simp only [holdingCount]; omega
  simp only [outstandingRequests]
  omega

/-- Closed instance of the C5 theorem at the initial state of three
tasks sharing a throttle with `per_host = 2`. -/
theorem C5_throttle_bounds_outstanding_witness :
    outstandingRequests (initThrottle 3 2) ≤ 2 :=
  C5_throttle_bounds_outstanding 3 2 (initThrottle 3 2) ThrottleReachable.init

/-! ## Concurrent detail fetcher (src/main.py,
`fetch_jobdetails_from_urls_async`)

One task per URL is launched; `_fetch_one` catches every exception at
the task boundary and returns it as a value.  The consumer loop walks
the tasks in `asyncio.as_completed` order — an arbitrary permutation of
the submission list — and for each completed task either appends the
parsed record to `jobs` or logs the error, writes the URL as one line to
the failed-URL log, and continues.  The fetch outcome per URL is an
oracle (`Except` with the exception text), the detail parser is the
`parse_jobdetail(html, url, tenant)` collaborator passed as a function,
and the completion order is an explicit permutation of the URL list.
The function returns `(jobs, failed-log lines)` in completion order. -/

def fetch_jobdetails_from_urls {α : Type} (tenant : String)
    (fetchOutcome : String → Except String String)
    (parse_jobdetail : String → String → String → α) :
    List String → List α × List String
  | [] => ([], [])
  | url :: rest =>
    let p := fetch_jobdetails_from_urls tenant fetchOutcome parse_jobdetail rest
    match fetchOutcome url with
    | .error _ => (p.1, url :: p.2)
    | .ok html => (parse_jobdetail html url tenant :: p.1, p.2)

/-- Whether the fetch of this URL raised. -/
def fetchFailed (fetchOutcome : String → Except String String)
    (url : String) : Bool :=
  match fetchOutcome url with
  | .error _ => true
  | .ok _ => false

/-- The parsed record of a URL whose fetch succeeded. -/
def okParse {α : Type} (tenant : String)
    (fetchOutcome : String → Except String String)
    (parse_jobdetail : String → String → String → α) (url : String) :
    Option α :=
  match fetchOutcome url with
  | .error _ => none
  | .ok html => some (parse_jobdetail html url tenant)

lemma okParse_filter_length {α : Type} (tenant : String)
    (fetchOutcome : String → Except String String)
    (parse_jobdetail : String → String → String → α) :
    ∀ l : List String,
      (l.filterMap (okParse tenant fetchOutcome parse_jobdetail)).length
        + (l.filter (fetchFailed fetchOutcome)).length = l.length := by
  intro l
  induction l with
  | nil => rfl
  | cons url rest ih =>
    rcases hO : fetchOutcome url with e | html
    · simp [List.filterMap_cons, List.filter_cons, okParse, fetchFailed, hO]
      omega
    · simp [List.filterMap_cons, List.filter_cons, okParse, fetchFailed, hO]
      omega

lemma fetch_jobdetails_eq {α : Type} (tenant : String)
    (fetchOutcome : String → Except String String)
    (parse_jobdetail : String → String → String → α) :
    ∀ perm : List String,
      fetch_jobdetails_from_urls tenant fetchOutcome parse_jobdetail perm
        = (perm.filterMap (okParse tenant fetchOutcome parse_jobdetail),
           perm.filter (fetchFailed fetchOutcome)) := by
  intro perm
  induction perm with
  | nil => rfl
  | cons url rest ih =>
    rw [fetch_jobdetails_from_urls, ih]
    rcases hO : fetchOutcome url with e | html
    · simp [List.filterMap_cons, List.filter_cons, okParse, fetchFailed, hO]
    · simp [List.filterMap_cons, List.filter_cons, okParse, fetchFailed, hO]

/-- Claim C6: for every batch of detail URLs, every per-URL fetch
outcome, and every completion order (any permutation of the batch), the
batch completes with every URL accounted for exactly once; each failing
URL is excluded from the results and appended as one line to the
failed-URL log; every non-failing URL's parsed record is included in the
results.  A failing URL therefore never aborts or changes the processing
of the other URLs. -/
theorem C6_per_url_failure_isolated {α : Type} (tenant : String)
    (fetchOutcome : String → Except String String)
    (parse_jobdetail : String → String → String → α)
    (urls perm : List String) (hperm : perm.Perm urls) :
    (fetch_jobdetails_from_urls tenant fetchOutcome parse_jobdetail perm).1
      = perm.filterMap (okParse tenant fetchOutcome parse_jobdetail)
    ∧ (fetch_jobdetails_from_urls tenant fetchOutcome parse_jobdetail perm).2
      = perm.filter (fetchFailed fetchOutcome)
    ∧ (fetch_jobdetails_from_urls tenant fetchOutcome parse_jobdetail perm).1.length
      + (fetch_jobdetails_from_urls tenant fetchOutcome parse_jobdetail perm).2.length
      = urls.length
    ∧ (∀ url ∈ urls, ∀ html, fetchOutcome url = .ok html →
        parse_jobdetail html url tenant
          ∈ (fetch_jobdetails_from_urls tenant fetchOutcome parse_jobdetail perm).1)
    ∧ (∀ url ∈ urls, fetchFailed fetchOutcome url = true →
        url ∈ (fetch_jobdetails_from_urls tenant fetchOutcome parse_jobdetail perm).2) := by
  have heq := fetch_jobdetails_eq tenant fetchOutcome parse_jobdetail perm
  have hlen := okParse_filter_length tenant fetchOutcome parse_jobdetail perm
  refine ⟨by rw [heq], by rw [heq], ?_, ?_, ?_⟩
  · rw [heq]
    simpa [hperm.length_eq] using hlen
  · intro url hmem html hO
    rw [heq]
    refine List.mem_filterMap.mpr ⟨url, hperm.mem_iff.mpr hmem, ?_⟩
    simp [okParse, hO]
  · intro url hmem hfail
    rw [heq]
    exact List.mem_filter.mpr ⟨hperm.mem_iff.mpr hmem, hfail⟩

/-- Closed instance of the C6 theorem: two URLs completed in reverse
order, the first failing; the batch still yields the other's record and
logs the failing URL. -/
theorem C6_per_url_failure_isolated_witness :
    (fetch_jobdetails_from_urls "t"
      (fun u => if u == "a" then .ok "H" else .error "boom")
      (fun html url tenant => html ++ url ++ tenant) ["b", "a"]).1
      = ["Hat"]
    ∧ (fetch_jobdetails_from_urls "t"
        (fun u => if u == "a" then .ok "H" else .error "boom")
        (fun html url tenant => html ++ url ++ tenant) ["b", "a"]).2
      = ["b"] := by
  have h := C6_per_url_failure_isolated "t"
    (fun u => if u == "a" then .ok "H" else .error "boom")
    (fun html url tenant => html ++ url ++ tenant)
    ["a", "b"] ["b", "a"] (by decide)
  exact ⟨by rw [h.1]; rfl, by rw [h.2.1]; rfl⟩

/-! ## Pagination walker (src/scraper/html_fallback.py,
`iter_searchjobs_pages` and `iter_searchjobs_pages_async`)

Both walkers fetch `SearchJobs` pages at increasing offsets for at most
`max_pages` iterations, stopping early on a non-200 status or a page
body without the substring `"JobDetail"`.  The page responses are an
oracle from the page index to `(status, html)`.  To make the difference
between the generator (`yield` inside the loop) and the async variant
(which appends to a local `pages` list and returns it after the loop)
observable, each model also produces its event trace: a `fetchPage`
event when the request is issued and — for the sync generator only — a
`yieldPage` event at the point in the trace where the consumer receives
that page's pair.  The async variant performs the same fetches but
never yields: its pairs are only available as the batched return value,
and in `main.py` its consumer `scrape_via_html_async` iterates it with
`async for`, which a plain coroutine does not support. -/

/-- Whether `pat` occurs at the start of `l`. -/
def startsWithChars : List Char → List Char → Bool
  | _, [] => true
  | [], _ :: _ => false
  | c :: cs, d :: ds => c == d && startsWithChars cs ds

/-- Whether `pat` occurs anywhere in `l`. -/
def containsChars : List Char → List Char → Bool
  | [], pat => pat.isEmpty
  | c :: cs, pat => startsWithChars (c :: cs) pat || containsChars cs pat

/-- Python `sub in s` (substring containment), over the character
lists of the two strings. -/
def strContains (s sub : String) : Bool := containsChars s.toList sub.toList

/-- `base_careers_url.rstrip("/")`. -/
def rstripSlash (s : String) : String :=
  String.mk ((s.toList.reverse.dropWhile (fun c => c == '/')).reverse)

/-- `search_url = base.rstrip("/") + "/SearchJobs"` together with
`url = f"{search_url}/?{qs}"` where `qs = urlencode({"jobOffset":
offset, "jobRecordsPerPage": page_size})` (Python dicts preserve
insertion order, so the query string lists `jobOffset` first). -/
def searchJobsUrl (base_careers_url : String) (offset page_size : Nat) : String :=
  rstripSlash base_careers_url ++ "/SearchJobs" ++ "/?" ++ "jobOffset="
    ++ toString offset ++ "&jobRecordsPerPage=" ++ toString page_size

inductive PageEvent where
  | fetchPage (url : String) : PageEvent
  | yieldPage (url : String) : PageEvent
deriving DecidableEq, Repr

def isFetchEvent : PageEvent → Bool
  | .fetchPage _ => true
  | .yieldPage _ => false

def countFetches (evs : List PageEvent) : Nat :=
  (evs.filter isFetchEvent).length

lemma countFetches_nil : countFetches [] = 0 := rfl

lemma countFetches_fetch_cons (u : String) (evs : List PageEvent) :
    countFetches (.fetchPage u :: evs) = countFetches evs + 1 := by
  simp [countFetches, List.filter_cons, isFetchEvent]

lemma countFetches_yield_cons (u : String) (evs : List PageEvent) :
    countFetches (.yieldPage u :: evs) = countFetches evs := by
  simp [countFetches, List.filter_cons, isFetchEvent]

/-- The loop of the sync generator `iter_searchjobs_pages`, with the
remaining iteration budget, the page index and the current offset. -/
def iter_searchjobs_pages_go (oracle : Nat → Nat × String)
    (base_careers_url : String) (page_size : Nat) :
    Nat → Nat → Nat → List PageEvent × List (String × String)
  | 0, _, _ => ([], [])
  | fuel + 1, pageIdx, offset =>
    let url := searchJobsUrl base_careers_url offset page_size
    let r := oracle pageIdx
    if r.1 ≠ 200 then ([.fetchPage url], [])
    else if strContains r.2 "JobDetail" then
      let rest := iter_searchjobs_pages_go oracle base_careers_url page_size
        fuel (pageIdx + 1) (offset + page_size)
      (.fetchPage url :: .yieldPage url :: rest.1, (url, r.2) :: rest.2)
    else ([.fetchPage url], [])

/-- `iter_searchjobs_pages(base_careers_url, page_size, max_pages)`:
offset starts at 0 and the loop runs `for _ in range(max_pages)`. -/
def iter_searchjobs_pages (oracle : Nat → Nat × String)
    (base_careers_url : String) (page_size max_pages : Nat) :
    List PageEvent × List (String × String) :=
  iter_searchjobs_pages_go oracle base_careers_url page_size max_pages 0 0

/-- The loop of `iter_searchjobs_pages_async`: identical stop
conditions and offset stepping, but the pairs are accumulated in the
local `pages` list and returned only when the loop finishes — the trace
contains no `yieldPage` event. -/
def iter_searchjobs_pages_async_go (oracle : Nat → Nat × String)
    (base_careers_url : String) (page_size : Nat) :
    Nat → Nat → Nat → List PageEvent × List (String × String)
  | 0, _, _ => ([], [])
  | fuel + 1, pageIdx, offset =>
    let url := searchJobsUrl base_careers_url offset page_size
    let r := oracle pageIdx
    if r.1 ≠ 200 then ([.fetchPage url], [])
    else if strContains r.2 "JobDetail" then
      let rest := iter_searchjobs_pages_async_go oracle base_careers_url page_size
        fuel (pageIdx + 1) (offset + page_size)
      (.fetchPage url :: rest.1, (url, r.2) :: rest.2)
    else ([.fetchPage url], [])

/-- `iter_searchjobs_pages_async(base_careers_url, page_size,
max_pages, ...)`. -/
def iter_searchjobs_pages_async (oracle : Nat → Nat × String)
    (base_careers_url : String) (page_size max_pages : Nat) :
    List PageEvent × List (String × String) :=
  iter_searchjobs_pages_async_go oracle base_careers_url page_size max_pages 0 0

lemma iter_sync_go_continue (oracle : Nat → Nat × String)
    (base_careers_url : String) (page_size fuel pageIdx offset : Nat)
    (h200 : (oracle pageIdx).1 = 200)
    (hc : strContains (oracle pageIdx).2 "JobDetail" = true) :
    iter_searchjobs_pages_go oracle base_careers_url page_size
        (fuel + 1) pageIdx offset
      = (.fetchPage (searchJobsUrl base_careers_url offset page_size)
          :: .yieldPage (searchJobsUrl base_careers_url offset page_size)
          :: (iter_searchjobs_pages_go oracle base_careers_url page_size
                fuel (pageIdx + 1) (offset + page_size)).1,
         (searchJobsUrl base_careers_url offset page_size, (oracle pageIdx).2)
          :: (iter_searchjobs_pages_go oracle base_careers_url page_size
                fuel (pageIdx + 1) (offset + page_size)).2) := by
  rw [iter_searchjobs_pages_go]
  simp [h200, hc]

lemma iter_async_go_continue (oracle : Nat → Nat × String)
    (base_careers_url : String) (page_size fuel pageIdx offset : Nat)
    (h200 : (oracle pageIdx).1 = 200)
    (hc : strContains (oracle pageIdx).2 "JobDetail" = true) :
    iter_searchjobs_pages_async_go oracle base_careers_url page_size
        (fuel + 1) pageIdx offset
      = (.fetchPage (searchJobsUrl base_careers_url offset page_size)
          :: (iter_searchjobs_pages_async_go oracle base_careers_url page_size
                fuel (pageIdx + 1) (offset + page_size)).1,
         (searchJobsUrl base_careers_url offset page_size, (oracle pageIdx).2)
          :: (iter_searchjobs_pages_async_go oracle base_careers_url page_size
                fuel (pageIdx + 1) (offset + page_size)).2) := by
  rw [iter_searchjobs_pages_async_go]
  simp [h200, hc]

lemma iter_sync_fetches_le (oracle : Nat → Nat × String)
    (base_careers_url : String) (page_size : Nat) :
    ∀ fuel pageIdx offset,
      countFetches
        (iter_searchjobs_pages_go oracle base_careers_url page_size
          fuel pageIdx offset).1 ≤ fuel := by
  intro fuel
  induction fuel with
  | zero => intro pageIdx offset; simp [iter_searchjobs_pages_go, countFetches]
  | succ fuel ih =>
    intro pageIdx offset
    by_cases h200 : (oracle pageIdx).1 = 200
    · by_cases hc : strContains (oracle pageIdx).2 "JobDetail" = true
      · rw [iter_sync_go_continue oracle base_careers_url page_size
          fuel pageIdx offset h200 hc]
        rw [countFetches_fetch_cons, countFetches_yield_cons]
        exact Nat.succ_le_succ (ih (pageIdx + 1) (offset + page_size))
      · rw [iter_searchjobs_pages_go]
        simp [h200, hc, countFetches, isFetchEvent]
    · rw [iter_searchjobs_pages_go]
      simp [h200, countFetches, isFetchEvent]

lemma iter_async_fetches_le (oracle : Nat → Nat × String)
    (base_careers_url : String) (page_size : Nat) :
    ∀ fuel pageIdx offset,
      countFetches
        (iter_searchjobs_pages_async_go oracle base_careers_url page_size
          fuel pageIdx offset).1 ≤ fuel := by
  intro fuel
  induction fuel with
  | zero => intro pageIdx offset; simp [iter_searchjobs_pages_async_go, countFetches]
  | succ fuel ih =>
    intro pageIdx offset
    by_cases h200 : (oracle pageIdx).1 = 200
    · by_cases hc : strContains (oracle pageIdx).2 "JobDetail" = true
      · rw [iter_async_go_continue oracle base_careers_url page_size
          fuel pageIdx offset h200 hc]
        rw [countFetches_fetch_cons]
        exact Nat.succ_le_succ (ih (pageIdx + 1) (offset + page_size))
      · rw [iter_searchjobs_pages_async_go]
        simp [h200, hc, countFetches, isFetchEvent]
    · rw [iter_searchjobs_pages_async_go]
      simp [h200, countFetches, isFetchEvent]

lemma iter_sync_all_good (oracle : Nat → Nat × String)
    (base_careers_url : String) (page_size : Nat) :
    ∀ fuel pageIdx offset,
      (∀ j, j < fuel → (oracle (pageIdx + j)).1 = 200
        ∧ strContains (oracle (pageIdx + j)).2 "JobDetail" = true) →
      (iter_searchjobs_pages_go oracle base_careers_url page_size
          fuel pageIdx offset).2
        = (List.range fuel).map (fun j =>
            (searchJobsUrl base_careers_url (offset + j * page_size) page_size,
             (oracle (pageIdx + j)).2))
      ∧ countFetches
          (iter_searchjobs_pages_go oracle base_careers_url page_size
            fuel pageIdx offset).1 = fuel := by
  intro fuel
  induction fuel with
  | zero =>
    intro pageIdx offset _
    simp [iter_searchjobs_pages_go, countFetches]
  | succ fuel ih =>
    intro pageIdx offset hgood
    obtain ⟨h200, hc⟩ := by simpa using hgood 0 (Nat.succ_pos _)
    have hrec := ih (pageIdx + 1) (offset + page_size)
      (fun j hj => by
        have := hgood (j + 1) (by omega)
        simpa [Nat.add_assoc, Nat.add_comm 1 j] using this)
    rw [iter_sync_go_continue oracle base_careers_url page_size
      fuel pageIdx offset h200 hc]
    constructor
    · simp only []
      rw [hrec.1, List.range_succ_eq_map, List.map_cons, List.map_map]
      congr 1
      · simp
      · apply List.map_congr_left
        intro j hj
        have h1 : offset + page_size + j * page_size
            = offset + (j + 1) * page_size := by ring
        have h2 : pageIdx + 1 + j = pageIdx + (j + 1) := by ring
        simp [Function.comp, h1, h2, Nat.succ_eq_add_one]
    · simp only []
      rw [countFetches_fetch_cons, countFetches_yield_cons, hrec.2]

lemma iter_async_all_good (oracle : Nat → Nat × String)
    (base_careers_url : String) (page_size : Nat) :
    ∀ fuel pageIdx offset,
      (∀ j, j < fuel → (oracle (pageIdx + j)).1 = 200
        ∧ strContains (oracle (pageIdx + j)).2 "JobDetail" = true) →
      (iter_searchjobs_pages_async_go oracle base_careers_url page_size
          fuel pageIdx offset).2
        = (List.range fuel).map (fun j =>
            (searchJobsUrl base_careers_url (offset + j * page_size) page_size,
             (oracle (pageIdx + j)).2))
      ∧ countFetches
          (iter_searchjobs_pages_async_go oracle base_careers_url page_size
            fuel pageIdx offset).1 = fuel := by
  intro fuel
  induction fuel with
  | zero =>
    intro pageIdx offset _
    simp [iter_searchjobs_pages_async_go, countFetches]
  | succ fuel ih =>
    intro pageIdx offset hgood
    obtain ⟨h200, hc⟩ := by simpa using hgood 0 (Nat.succ_pos _)
    have hrec := ih (pageIdx + 1) (offset + page_size)
      (fun j hj => by
        have := hgood (j + 1) (by omega)
        simpa [Nat.add_assoc, Nat.add_comm 1 j] using this)
    rw [iter_async_go_continue oracle base_careers_url page_size
      fuel pageIdx offset h200 hc]
    constructor
    · simp only []
      rw [hrec.1, List.range_succ_eq_map, List.map_cons, List.map_map]
      congr 1
      · simp
      · apply List.map_congr_left
        intro j hj
        have h1 : offset + page_size + j * page_size
            = offset + (j + 1) * page_size := by ring
        have h2 : pageIdx + 1 + j = pageIdx + (j + 1) := by ring
        simp [Function.comp, h1, h2, Nat.succ_eq_add_one]
    · simp only []
      rw [countFetches_fetch_cons, hrec.2]

/-- Claim C8: both pagination walkers perform at most `max_pages` page
fetches for every oracle and then halt; when every page returns HTTP 200
with the `"JobDetail"` marker — so no stop condition other than the page
bound ever fires — they perform exactly `max_pages` fetches and the page
at index `i` is requested at offset `i * page_size`, the offset
advancing by `page_size` after each yielded page. -/
theorem C8_walker_halts_within_max_pages (base_careers_url : String)
    (page_size max_pages : Nat) (oracle : Nat → Nat × String)
    (hgood : ∀ i, i < max_pages → (oracle i).1 = 200
      ∧ strContains (oracle i).2 "JobDetail" = true) :
    (∀ o : Nat → Nat × String,
      countFetches (iter_searchjobs_pages o base_careers_url page_size max_pages).1
        ≤ max_pages
      ∧ countFetches
          (iter_searchjobs_pages_async o base_careers_url page_size max_pages).1
        ≤ max_pages)
    ∧ (iter_searchjobs_pages oracle base_careers_url page_size max_pages).2
      = (List.range max_pages).map (fun i =>
          (searchJobsUrl base_careers_url (i * page_size) page_size, (oracle i).2))
    ∧ countFetches
        (iter_searchjobs_pages oracle base_careers_url page_size max_pages).1
      = max_pages
    ∧ (iter_searchjobs_pages_async oracle base_careers_url page_size max_pages).2
      = (List.range max_pages).map (fun i =>
          (searchJobsUrl base_careers_url (i * page_size) page_size, (oracle i).2))
    ∧ countFetches
        (iter_searchjobs_pages_async oracle base_careers_url page_size max_pages).1
      = max_pages := by
  have hs := iter_sync_all_good oracle base_careers_url page_size max_pages 0 0
    (fun j hj => by simpa using hgood j hj)
  have ha := iter_async_all_good oracle base_careers_url page_size max_pages 0 0
    (fun j hj => by simpa using hgood j hj)
  refine ⟨fun o => ⟨iter_sync_fetches_le o base_careers_url page_size max_pages 0 0,
    iter_async_fetches_le o base_careers_url page_size max_pages 0 0⟩, ?_, hs.2, ?_, ha.2⟩
  · simpa [iter_searchjobs_pages] using hs.1
  · simpa [iter_searchjobs_pages_async] using ha.1

/-- Closed instance of the C8 theorem: two listing pages that always
carry the marker are fetched at offsets 0 and 25, and the walk halts
after exactly `max_pages = 2` fetches. -/
theorem C8_walker_halts_within_max_pages_witness :
    (iter_searchjobs_pages (fun _ => (200, "x JobDetail y"))
        "https://acme.avature.net/careers" 25 2).2
      = (List.range 2).map (fun i =>
          (searchJobsUrl "https://acme.avature.net/careers" (i * 25) 25,
           "x JobDetail y")) :=
  (C8_walker_halts_within_max_pages "https://acme.avature.net/careers" 25 2
    (fun _ => (200, "x JobDetail y")) (by decide)).2.1

/-- Claim C7 is wrong about the code that the pipeline runs: the sync
generator `iter_searchjobs_pages` does yield each `(page_url, html)`
pair before issuing the next page fetch, but `iter_searchjobs_pages_async`
— the variant `scrape_via_html_async` actually consumes — returns its
pairs as one batch after the loop: on a two-page listing its trace is
two fetches with no yield point between or after them, so the consumer
can never receive page 1 before the fetch of page 2 is issued. -/
theorem C7_async_walker_is_batch_not_lazy :
    (iter_searchjobs_pages (fun _ => (200, "x JobDetail y"))
        "https://acme.avature.net/careers" 25 2).1
      = [.fetchPage (searchJobsUrl "https://acme.avature.net/careers" 0 25),
         .yieldPage (searchJobsUrl "https://acme.avature.net/careers" 0 25),
         .fetchPage (searchJobsUrl "https://acme.avature.net/careers" 25 25),
         .yieldPage (searchJobsUrl "https://acme.avature.net/careers" 25 25)]
    ∧ (iter_searchjobs_pages_async (fun _ => (200, "x JobDetail y"))
        "https://acme.avature.net/careers" 25 2).1
      = [.fetchPage (searchJobsUrl "https://acme.avature.net/careers" 0 25),
         .fetchPage (searchJobsUrl "https://acme.avature.net/careers" 25 25)]
    ∧ (∀ e ∈ (iter_searchjobs_pages_async (fun _ => (200, "x JobDetail y"))
        "https://acme.avature.net/careers" 25 2).1, isFetchEvent e = true) := by
  refine ⟨by decide, by decide, by decide⟩

/-! ## Generic request layer (src/utils/http.py, `_request`)

```
for attempt in range(3):
    resp = session.request(method, url, timeout=timeout, **kwargs)
    if resp.status_code == 406 and attempt < 2:
        session.headers["Accept"] = "*/*"
        time.sleep(0.5 * (attempt + 1))
        continue
    return resp
return resp
```

The transport is an oracle from the attempt number and the `Accept`
header in force to the response status (the response is identified with
its status here).  The loop has exactly three iterations; the model
unrolls them, returning the final status, the number of attempts made,
the trace of `(Accept header used, status)` pairs, and the session's
`Accept` header after the call (the session mutation is global). -/

def _request (send : Nat → String → Nat) (accept0 : String) :
    Nat × Nat × List (String × Nat) × String :=
  let s0 := send 0 accept0
  if s0 = 406 then
    let a1 := "*/*"
    let s1 := send 1 a1
    if s1 = 406 then
      let a2 := "*/*"
      let s2 := send 2 a2
      (s2, 3, [(accept0, s0), (a1, s1), (a2, s2)], a2)
    else (s1, 2, [(accept0, s0), (a1, s1)], a1)
  else (s0, 1, [(accept0, s0)], accept0)

/-- Claim C9: a request answered 406 has its `Accept` header widened to
`"*/*"` and is retried, with at most 3 total attempts; any non-406
response (any status, error or not) is returned immediately; after 3
attempts the last (406) response is returned. -/
theorem C9_http_406_retry (accept0 : String) (sA sB sC : Nat → String → Nat)
    (hA : sA 0 accept0 ≠ 406)
    (hB0 : sB 0 accept0 = 406) (hB1 : sB 1 "*/*" ≠ 406)
    (hC0 : sC 0 accept0 = 406) (hC1 : sC 1 "*/*" = 406)
    (hC2 : sC 2 "*/*" = 406) :
    (∀ (send : Nat → String → Nat) (a : String), (_request send a).2.1 ≤ 3)
    ∧ _request sA accept0 = (sA 0 accept0, 1, [(accept0, sA 0 accept0)], accept0)
    ∧ _request sB accept0
      = (sB 1 "*/*", 2, [(accept0, 406), ("*/*", sB 1 "*/*")], "*/*")
    ∧ _request sC accept0
      = (406, 3, [(accept0, 406), ("*/*", 406), ("*/*", 406)], "*/*") := by
  refine ⟨?_, ?_, ?_, ?_⟩
  · intro send a
    rw [_request]
    by_cases h0 : send 0 a = 406
    · by_cases h1 : send 1 "*/*" = 406
      · simp [h0, h1]
      · simp [h0, h1]
    · simp [h0]
  · rw [_request]
    simp [hA]
  · rw [_request]
    simp [hB0, hB1]
  · rw [_request]
    simp [hC0, hC1, hC2]

/-- Closed instance of the C9 theorem: a transport that always answers
406 is retried with the widened header and exhausts three attempts. -/
theorem C9_http_406_retry_witness :
    _request (fun _ _ => 406) "text/html"
      = (406, 3, [("text/html", 406), ("*/*", 406), ("*/*", 406)], "*/*")
    ∧ _request (fun _ _ => 200) "text/html"
      = (200, 1, [("text/html", 200)], "text/html") := by
  have h := C9_http_406_retry "text/html" (fun _ _ => 200) (fun i _ => if i = 0 then 406 else 200)
    (fun _ _ => 406) (by decide) (by decide) (by decide) (by decide) (by decide) (by decide)
  exact ⟨h.2.2.2, h.2.1⟩

/-! ## API pager (src/scraper/fetch.py, `fetch_jobs`)

```
page = 1
while True:
    resp = post(endpoint, json={"page": page, "pageSize": 50})
    resp.raise_for_status()
    jobs = data.get("jobs") or data.get("results") or []
    if not jobs: break
    results.extend(jobs); page += 1
```

The endpoint is an oracle from the page number to the JSON response,
modelled as an HTTP status plus the optional `jobs` and `results`
fields (`none` for an absent field); the item type of the raw job lists
is a parameter.  The unbounded `while True` is modelled with explicit
fuel: the result is `none` while the loop is still running when the
fuel runs out, and `some` of the outcome (the accumulated list, or the
`raise_for_status` error) once the loop exits on its own.  Each call
also returns the trace of `(page, pageSize)` payloads sent. -/

structure ApiResponse (α : Type) where
  status : Nat
  jobs : Option (List α)
  results : Option (List α)

/-- `data.get("jobs") or data.get("results") or []`: Python `or`
falls through on falsy values, so an *empty* `jobs` list also defers to
`results`. -/
def pyOrJobs {α : Type} (r : ApiResponse α) : List α :=
  match r.jobs with
  | some (x :: xs) => x :: xs
  | _ =>
    match r.results with
    | some (y :: ys) => y :: ys
    | _ => []

def fetch_jobs_go {α : Type} (oracle : Nat → ApiResponse α) :
    Nat → Nat → List α → Option (Except Nat (List α)) × List (Nat × Nat)
  | 0, _, _ => (none, [])
  | fuel + 1, page, acc =>
    let r := oracle page
    if 400 ≤ r.status then (some (.error r.status), [(page, 50)])
    else
      match pyOrJobs r with
      | [] => (some (.ok acc), [(page, 50)])
      | x :: xs =>
        let rest := fetch_jobs_go oracle fuel (page + 1) (acc ++ (x :: xs))
        (rest.1, (page, 50) :: rest.2)

/-- `fetch_jobs(endpoint)` run for at most `fuel` loop iterations:
pages are requested sequentially starting at page 1 with `pageSize`
fixed at 50. -/
def fetch_jobs {α : Type} (oracle : Nat → ApiResponse α) (fuel : Nat) :
    Option (Except Nat (List α)) × List (Nat × Nat) :=
  fetch_jobs_go oracle fuel 1 []

lemma payload_trace_shift (page fuel : Nat) :
    (page, 50) :: (List.range fuel).map (fun j => (page + 1 + j, 50))
      = (List.range (fuel + 1)).map (fun j => (page + j, 50)) := by
  rw [List.range_succ_eq_map, List.map_cons, List.map_map]
  congr 1
  apply List.map_congr_left
  intro a ha
  simp only [Function.comp_apply, Nat.succ_eq_add_one, Prod.mk.injEq, and_true]
  omega

lemma jobs_concat_shift {α : Type} (oracle : Nat → ApiResponse α)
    (page n : Nat) (x : α) (xs : List α)
    (hJ : pyOrJobs (oracle page) = x :: xs) :
    (x :: xs) ++ (List.range n).flatMap
        (fun j => pyOrJobs (oracle (page + 1 + j)))
      = (List.range (n + 1)).flatMap (fun j => pyOrJobs (oracle (page + j))) := by
  rw [List.range_succ_eq_map, List.flatMap_cons, List.flatMap_map]
  congr 1
  · simpa using hJ.symm
  · apply List.flatMap_congr
    intro j hj
    have h2 : page + 1 + j = page + (j + 1) := by ring
    simp [h2, Nat.succ_eq_add_one]

lemma fetch_jobs_go_good {α : Type} (oracle : Nat → ApiResponse α)
    (hgood : ∀ i, (oracle i).status < 400 ∧ pyOrJobs (oracle i) ≠ []) :
    ∀ fuel page acc,
      (fetch_jobs_go oracle fuel page acc).1 = none
      ∧ (fetch_jobs_go oracle fuel page acc).2
        = (List.range fuel).map (fun j => (page + j, 50)) := by
  intro fuel
  induction fuel with
  | zero => intro page acc; simp [fetch_jobs_go]
  | succ fuel ih =>
    intro page acc
    obtain ⟨hst, hne⟩ := hgood page
    rw [fetch_jobs_go]
    rcases hJ : pyOrJobs (oracle page) with _ | ⟨x, xs⟩
    · exact absurd hJ hne
    · have hrec := ih (page + 1) (acc ++ (x :: xs))
      simp only [Nat.not_le.mpr hst, if_false, hJ, ite_false]
      constructor
      · exact hrec.1
      · rw [hrec.2]
        exact payload_trace_shift page fuel

lemma fetch_jobs_go_terminates {α : Type} (oracle : Nat → ApiResponse α) :
    ∀ (n page : Nat) (acc : List α),
      (∀ i, i < n → (oracle (page + i)).status < 400
        ∧ pyOrJobs (oracle (page + i)) ≠ []) →
      (oracle (page + n)).status < 400 → pyOrJobs (oracle (page + n)) = [] →
      fetch_jobs_go oracle (n + 1) page acc
        = (some (.ok (acc ++ (List.range n).flatMap
            (fun j => pyOrJobs (oracle (page + j))))),
           (List.range (n + 1)).map (fun j => (page + j, 50))) := by
  intro n
  induction n with
  | zero =>
    intro page acc _ hst hempty
    rw [fetch_jobs_go]
    rw [Nat.add_zero] at hst hempty
    simp [Nat.not_le.mpr hst, hempty, List.range_succ]
  | succ n ih =>
    intro page acc hgood hst hempty
    obtain ⟨hst0, hne0⟩ := by simpa using hgood 0 (Nat.succ_pos _)
    rw [fetch_jobs_go]
    rcases hJ : pyOrJobs (oracle page) with _ | ⟨x, xs⟩
    · exact absurd hJ hne0
    · have hrec := ih (page + 1) (acc ++ (x :: xs))
        (fun i hi => by
          have := hgood (i + 1) (by omega)
          simpa [Nat.add_assoc, Nat.add_comm 1 i] using this)
        (by
          have h2 : page + 1 + n = page + (n + 1) := by ring
          rw [h2]; exact hst)
        (by
          have h2 : page + 1 + n = page + (n + 1) := by ring
          rw [h2]; exact hempty)
      have hkey : acc ++ x :: xs ++ (List.range n).flatMap
            (fun j => pyOrJobs (oracle (page + 1 + j)))
          = acc ++ (List.range (n + 1)).flatMap
              (fun j => pyOrJobs (oracle (page + j))) := by
        rw [List.append_assoc, jobs_concat_shift oracle page n x xs hJ]
      simp only [Nat.not_le.mpr hst0, if_false, hJ, ite_false]
      rw [hrec]
      exact Prod.ext (congrArg some (congrArg Except.ok hkey))
        (payload_trace_shift page (n + 1))

/-- Claim C10: `fetch_jobs` requests pages sequentially from page 1
with `pageSize` 50; when pages `1..n` are non-empty and page `n + 1` is
the first whose job list (`jobs`, else `results`) is empty or absent,
it terminates right there, returning the concatenation of the page job
lists in page order after `n + 1` requests; and — having no page bound —
against a server whose every page is non-empty it never terminates: no
amount of fuel completes the loop, the page number growing without
bound. -/
theorem C10_fetch_jobs_pages (n : Nat) {α : Type}
    (oA oB : Nat → ApiResponse α)
    (hA1 : ∀ i, i ≤ n → 1 ≤ i →
      (oA i).status < 400 ∧ pyOrJobs (oA i) ≠ [])
    (hA2 : (oA (n + 1)).status < 400) (hA3 : pyOrJobs (oA (n + 1)) = [])
    (hB : ∀ i, (oB i).status < 400 ∧ pyOrJobs (oB i) ≠ []) :
    fetch_jobs oA (n + 1)
      = (some (.ok ((List.range n).flatMap (fun j => pyOrJobs (oA (1 + j))))),
         (List.range (n + 1)).map (fun j => (1 + j, 50)))
    ∧ (∀ fuel, (fetch_jobs oB fuel).1 = none)
    ∧ (∀ fuel, (fetch_jobs oB fuel).2
        = (List.range fuel).map (fun j => (1 + j, 50))) := by
  refine ⟨?_, ?_, ?_⟩
  · have h := fetch_jobs_go_terminates oA n 1 []
      (fun i hi => hA1 (1 + i) (by omega) (by omega))
      (by simpa [Nat.add_comm 1 n] using hA2)
      (by simpa [Nat.add_comm 1 n] using hA3)
    simpa [fetch_jobs] using h
  · intro fuel
    exact (fetch_jobs_go_good oB hB fuel 1 []).1
  · intro fuel
    exact (fetch_jobs_go_good oB hB fuel 1 []).2

/-- Closed instance of the C10 theorem: one non-empty page then an
empty one terminates after two requests with that page's jobs; the
all-non-empty server leaves the loop running at any fuel. -/
theorem C10_fetch_jobs_pages_witness :
    fetch_jobs (fun p => if p = 1 then ApiResponse.mk 200 (some [7]) none
        else ApiResponse.mk 200 (some []) none) 2
      = (some (.ok [7]), [(1, 50), (2, 50)])
    ∧ (fetch_jobs (fun p => ApiResponse.mk 200 (some [p]) none) 5).1 = none := by
  have h := C10_fetch_jobs_pages 1
    (fun p => if p = 1 then ApiResponse.mk 200 (some [7]) none
      else ApiResponse.mk 200 (some []) none)
    (fun p => ApiResponse.mk 200 (some [p]) none)
    (by decide) (by decide) (by decide)
    (fun i => ⟨by norm_num, by simp [pyOrJobs]⟩)
  refine ⟨?_, h.2.1 5⟩
  rw [h.1]
  rfl

end AvatureScraper
